import Mathlib

/-!
Verification of the retrieval-augmented QA pipeline (`src/backend` of the
`ai-proj-3` service): deterministic hash embeddings, document chunking,
retrieval, answer synthesis, bounded chat history and the ingest/query
orchestrator.

Machine integers are modelled as `Nat` with explicit `% 2 ^ 32` where the
source relies on 32-bit wraparound (inside SHA-256); vector components are
modelled as `ℚ`; fallible operations return `Except`.
-/

namespace RAG

/-! ## SHA-256

`HashEmbeddingFunction._vectorize` calls `hashlib.sha256(...).digest()`.
The digest algorithm (FIPS 180-4) is implemented here over byte lists,
with 32-bit words as `Nat` reduced mod `2 ^ 32`. -/

namespace SHA256

/-- Rotate a 32-bit word (a `Nat` below `2 ^ 32`) right by `n` bits. -/
def rotr (x n : Nat) : Nat :=
  (x / 2 ^ n + x % 2 ^ n * 2 ^ (32 - n)) % 2 ^ 32

/-- The 64 round constants (fractional parts of cube roots of the first
64 primes). -/
def K : List Nat :=
  [1116352408, 1899447441, 3049323471, 3921009573, 961987163,
   1508970993, 2453635748, 2870763221, 3624381080, 310598401,
   607225278, 1426881987, 1925078388, 2162078206, 2614888103,
   3248222580, 3835390401, 4022224774, 264347078, 604807628,
   770255983, 1249150122, 1555081692, 1996064986, 2554220882,
   2821834349, 2952996808, 3210313671, 3336571891, 3584528711,
   113926993, 338241895, 666307205, 773529912, 1294757372,
   1396182291, 1695183700, 1986661051, 2177026350, 2456956037,
   2730485921, 2820302411, 3259730800, 3345764771, 3516065817,
   3600352804, 4094571909, 275423344, 430227734, 506948616,
   659060556, 883997877, 958139571, 1322822218, 1537002063,
   1747873779, 1955562222, 2024104815, 2227730452, 2361852424,
   2428436474, 2756734187, 3204031479, 3329325298]

/-- Working state: eight 32-bit words. -/
structure Hash where
  a : Nat
  b : Nat
  c : Nat
  d : Nat
  e : Nat
  f : Nat
  g : Nat
  h : Nat
deriving DecidableEq

/-- Initial hash value (fractional parts of square roots of the first
8 primes). -/
def initHash : Hash :=
  ⟨1779033703, 3144134277, 1013904242, 2773480762,
   1359893119, 2600822924, 528734635, 1541459225⟩

/-- Big-endian 32-bit word from four message bytes starting at `4 * i`. -/
def wordAt (block : List Nat) (i : Nat) : Nat :=
  block.getD (4 * i) 0 * 2 ^ 24 + block.getD (4 * i + 1) 0 * 2 ^ 16 +
    block.getD (4 * i + 2) 0 * 2 ^ 8 + block.getD (4 * i + 3) 0

/-- Message schedule `W_i` for one 64-byte block. -/
def msgSched (block : List Nat) (i : Nat) : Nat :=
  if hi : i < 16 then wordAt block i
  else
    let s0 := fun x => (rotr x 7) ^^^ (rotr x 18) ^^^ (x / 2 ^ 3)
    let s1 := fun x => (rotr x 17) ^^^ (rotr x 19) ^^^ (x / 2 ^ 10)
    (msgSched block (i - 16) + s0 (msgSched block (i - 15)) +
      msgSched block (i - 7) + s1 (msgSched block (i - 2))) % 2 ^ 32
termination_by i
decreasing_by all_goals omega

/-- One compression round. -/
def round (block : List Nat) (st : Hash) (t : Nat) : Hash :=
  let S1 := (rotr st.e 6) ^^^ (rotr st.e 11) ^^^ (rotr st.e 25)
  let ch := (st.e &&& st.f) ^^^ ((st.e ^^^ 0xffffffff) &&& st.g)
  let T1 := (st.h + S1 + ch + K.getD t 0 + msgSched block t) % 2 ^ 32
  let S0 := (rotr st.a 2) ^^^ (rotr st.a 13) ^^^ (rotr st.a 22)
  let maj := (st.a &&& st.b) ^^^ (st.a &&& st.c) ^^^ (st.b &&& st.c)
  let T2 := (S0 + maj) % 2 ^ 32
  ⟨(T1 + T2) % 2 ^ 32, st.a, st.b, st.c, (st.d + T1) % 2 ^ 32, st.e, st.f, st.g⟩

/-- Process one 64-byte block. -/
def processBlock (st : Hash) (block : List Nat) : Hash :=
  let w := (List.range 64).foldl (round block) st
  ⟨(st.a + w.a) % 2 ^ 32, (st.b + w.b) % 2 ^ 32, (st.c + w.c) % 2 ^ 32,
   (st.d + w.d) % 2 ^ 32, (st.e + w.e) % 2 ^ 32, (st.f + w.f) % 2 ^ 32,
   (st.g + w.g) % 2 ^ 32, (st.h + w.h) % 2 ^ 32⟩

/-- Big-endian 8-byte encoding of the message bit length. -/
def lenBytes (bits : Nat) : List Nat :=
  [bits / 2 ^ 56 % 256, bits / 2 ^ 48 % 256, bits / 2 ^ 40 % 256,
   bits / 2 ^ 32 % 256, bits / 2 ^ 24 % 256, bits / 2 ^ 16 % 256,
   bits / 2 ^ 8 % 256, bits % 256]

/-- Pad a message to a multiple of 64 bytes: `0x80`, zeros, 8-byte length. -/
def pad (msg : List Nat) : List Nat :=
  msg ++ 0x80 :: List.replicate ((120 - (msg.length + 1) % 64) % 64) 0 ++
    lenBytes (8 * msg.length)

/-- Cut a byte list into 64-byte blocks. -/
def toBlocks : List Nat → List (List Nat)
  | [] => []
  | x :: xs => ((x :: xs).take 64) :: toBlocks ((x :: xs).drop 64)
termination_by l => l.length
decreasing_by simp [List.length_drop]; omega

/-- Big-endian serialization of one 32-bit word as four bytes. -/
def wordBytes (w : Nat) : List Nat :=
  [w / 2 ^ 24 % 256, w / 2 ^ 16 % 256, w / 2 ^ 8 % 256, w % 256]

/-- The final hash state for a message. -/
def digestState (msg : List Nat) : Hash :=
  (toBlocks (pad msg)).foldl processBlock initHash

/-- The 32-byte SHA-256 digest of a byte list. -/
def digest (msg : List Nat) : List Nat :=
  wordBytes (digestState msg).a ++ wordBytes (digestState msg).b ++
    wordBytes (digestState msg).c ++ wordBytes (digestState msg).d ++
    wordBytes (digestState msg).e ++ wordBytes (digestState msg).f ++
    wordBytes (digestState msg).g ++ wordBytes (digestState msg).h

theorem length_digest (msg : List Nat) : (digest msg).length = 32 := by
  simp [digest, wordBytes]

theorem mem_wordBytes_lt {b w : Nat} (hb : b ∈ wordBytes w) : b < 256 := by
  simp only [wordBytes, List.mem_cons, List.not_mem_nil, or_false] at hb
  rcases hb with h | h | h | h <;> subst h <;> exact Nat.mod_lt _ (by norm_num)

theorem mem_digest_lt (msg : List Nat) : ∀ b ∈ digest msg, b < 256 := by
  intro b hb
  simp only [digest, List.mem_append] at hb
  rcases hb with ((((((h | h) | h) | h) | h) | h) | h) | h <;>
    exact mem_wordBytes_lt h

end SHA256

/-- The UTF-8 bytes of a string, as natural numbers (Python
`str.encode("utf-8")`). -/
def strBytes (s : String) : List Nat :=
  s.toUTF8.toList.map (fun b => b.toNat)

/-- Model of `hashlib.sha256(s.encode("utf-8")).digest()`. -/
def sha256 (s : String) : List Nat :=
  SHA256.digest (strBytes s)

theorem length_sha256 (s : String) : (sha256 s).length = 32 :=
  SHA256.length_digest _

theorem mem_sha256_lt (s : String) : ∀ b ∈ sha256 s, b < 256 :=
  SHA256.mem_digest_lt _

/-! ## Decimal rendering of naturals

Python interpolates integers into f-strings in standard decimal notation
(`f"{seed}-{counter}"`, `f"{file_path.stem}-{idx}"`); `natRepr` is that
decimal notation. -/

/-- Little-endian decimal digits, by structural recursion on a fuel bound
(kernel-reducible, unlike `Nat.digits`). -/
def natDigitsAux : Nat → Nat → List Nat
  | 0, _ => []
  | fuel + 1, n => if n = 0 then [] else n % 10 :: natDigitsAux fuel (n / 10)

/-- Little-endian decimal digits of a natural number. -/
def natDecimalDigits (n : Nat) : List Nat :=
  natDigitsAux n n

theorem natDigitsAux_eq_digits :
    ∀ fuel n, n ≤ fuel → natDigitsAux fuel n = Nat.digits 10 n := by
  intro fuel
  induction fuel with
  | zero =>
    intro n hn
    have : n = 0 := Nat.le_zero.mp hn
    simp [this, natDigitsAux]
  | succ k ih =>
    intro n hn
    by_cases h0 : n = 0
    · simp [h0, natDigitsAux]
    · rw [natDigitsAux, if_neg h0,
        ih (n / 10) (by omega),
        Nat.digits_def' (by norm_num : 1 < 10) (Nat.pos_of_ne_zero h0)]

theorem natDecimalDigits_eq_digits (n : Nat) :
    natDecimalDigits n = Nat.digits 10 n :=
  natDigitsAux_eq_digits n n le_rfl

/-- The characters of the decimal representation of a natural number. -/
def natDigitsChars (n : Nat) : List Char :=
  if n = 0 then ['0'] else ((natDecimalDigits n).map Nat.digitChar).reverse

/-- Decimal representation of a natural number (Python `str(int)`). -/
def natRepr (n : Nat) : String :=
  String.mk (natDigitsChars n)

theorem digitChar_injOn :
    ∀ a < 10, ∀ b < 10, Nat.digitChar a = Nat.digitChar b → a = b := by decide

theorem map_digitChar_inj :
    ∀ (l₁ l₂ : List Nat), (∀ d ∈ l₁, d < 10) → (∀ d ∈ l₂, d < 10) →
      l₁.map Nat.digitChar = l₂.map Nat.digitChar → l₁ = l₂ := by
  intro l₁
  induction l₁ with
  | nil => intro l₂ _ _ h; cases l₂ <;> simp_all
  | cons a t ih =>
    intro l₂ h₁ h₂ h
    cases l₂ with
    | nil => simp_all
    | cons b t' =>
      simp only [List.map_cons, List.cons.injEq] at h
      have ha : a = b :=
        digitChar_injOn a (h₁ a (by simp)) b (h₂ b (by simp)) h.1
      have ht : t = t' :=
        ih t' (fun d hd => h₁ d (by simp [hd])) (fun d hd => h₂ d (by simp [hd])) h.2
      rw [ha, ht]

theorem natDigitsChars_ne_zero {n : Nat} (hn : n ≠ 0) :
    ((Nat.digits 10 n).map Nat.digitChar).reverse ≠ ['0'] := by
  intro hrev
  have hmap : (Nat.digits 10 n).map Nat.digitChar = ['0'] := by
    have := congrArg List.reverse hrev
    simpa using this
  have hne : Nat.digits 10 n ≠ [] := Nat.digits_ne_nil_iff_ne_zero.mpr hn
  rcases hd : Nat.digits 10 n with _ | ⟨d, rest⟩
  · exact hne hd
  · rw [hd] at hmap
    simp only [List.map_cons, List.cons.injEq] at hmap
    have hrest : rest = [] := List.map_eq_nil_iff.mp hmap.2
    have hdlt : d < 10 :=
      Nat.digits_lt_base (by norm_num) (by rw [hd]; simp)
    have hd0 : d = 0 := digitChar_injOn d hdlt 0 (by norm_num) hmap.1
    have hlast : (Nat.digits 10 n).getLast hne ≠ 0 :=
      Nat.getLast_digit_ne_zero 10 hn
    apply hlast
    have hg : Nat.digits 10 n = [d] := by rw [hd, hrest]
    simp [hg, hd0]

theorem natDigitsChars_injective : Function.Injective natDigitsChars := by
  intro m n h
  unfold natDigitsChars at h
  rw [natDecimalDigits_eq_digits, natDecimalDigits_eq_digits] at h
  by_cases hm : m = 0 <;> by_cases hn : n = 0
  · rw [hm, hn]
  · rw [if_pos hm, if_neg hn] at h
    exact absurd h.symm (natDigitsChars_ne_zero hn)
  · rw [if_neg hm, if_pos hn] at h
    exact absurd h (natDigitsChars_ne_zero hm)
  · rw [if_neg hm, if_neg hn] at h
    have hmap : (Nat.digits 10 m).map Nat.digitChar =
        (Nat.digits 10 n).map Nat.digitChar := by
      have := congrArg List.reverse h
      simpa using this
    have hdig : Nat.digits 10 m = Nat.digits 10 n :=
      map_digitChar_inj _ _
        (fun d hd => Nat.digits_lt_base (by norm_num) hd)
        (fun d hd => Nat.digits_lt_base (by norm_num) hd) hmap
    exact Nat.digits_inj_iff.mp hdig

theorem natRepr_injective : Function.Injective natRepr := by
  intro m n h
  have hchars : natDigitsChars m = natDigitsChars n := congrArg String.data h
  exact natDigitsChars_injective hchars

/-! ## Python string operations

Modelled over `String.data` (code-point lists) so that they are
kernel-reducible; Python's `str` operations work on code points. -/

/-- Strip leading and trailing whitespace from a character list. -/
def trimChars (cs : List Char) : List Char :=
  ((cs.dropWhile Char.isWhitespace).reverse.dropWhile Char.isWhitespace).reverse

/-- Python `str.strip()`. -/
def pyStrip (s : String) : String :=
  String.mk (trimChars s.data)

/-- Python `str.lower()`. -/
def pyLower (s : String) : String :=
  String.mk (s.data.map Char.toLower)

/-- Python `str.replace(a, b)` for one-character `a` and `b` (the only
form this code base uses, in `text.replace("\n", " ")`). -/
def pyReplaceChar (s : String) (a b : Char) : String :=
  String.mk (s.data.map (fun c => if c = a then b else c))

/-- Python `s[:n]` (slicing by code points). -/
def pyTake (s : String) (n : Nat) : String :=
  String.mk (s.data.take n)

/-- The newline character. -/
def newlineChar : Char := Char.ofNat 10

/-! ## HashEmbeddingFunction (`pipeline.py`, lines 25-45)

The deterministic embedding fallback.  The dataclass field `dimension`
(default 384) is the `dimension` argument below; vector components are
modelled as `ℚ`. -/

namespace HashEmbeddingFunction

/-- The `while len(vector) < self.dimension` loop of `_vectorize`. -/
def vectorizeLoop (seed : String) (dimension : Nat) (vector : List ℚ)
    (counter : Nat) : List ℚ :=
  if h : vector.length < dimension then
    vectorizeLoop seed dimension
      (vector ++ (sha256 (seed ++ "-" ++ natRepr counter)).map
        (fun byte : Nat => (byte : ℚ) / 255))
      (counter + 1)
  else vector
termination_by dimension - vector.length
decreasing_by
  simp only [List.length_append, List.length_map, length_sha256]
  omega

/-- Model of `HashEmbeddingFunction._vectorize` (`pipeline.py`, lines 37-45). -/
def vectorize (dimension : Nat) (text : String) : List ℚ :=
  (vectorizeLoop (if pyStrip text = "" then "empty" else pyStrip text)
    dimension [] 0).take dimension

/-- Model of `HashEmbeddingFunction.embed_documents` (`pipeline.py`, lines 31-32). -/
def embed_documents (dimension : Nat) (texts : List String) : List (List ℚ) :=
  texts.map (vectorize dimension)

/-- Model of `HashEmbeddingFunction.embed_query` (`pipeline.py`, lines 34-35). -/
def embed_query (dimension : Nat) (text : String) : List ℚ :=
  vectorize dimension text

theorem le_length_vectorizeLoop (seed : String) (dimension : Nat)
    (v : List ℚ) (c : Nat) :
    dimension ≤ (vectorizeLoop seed dimension v c).length := by
  induction v, c using vectorizeLoop.induct seed dimension with
  | case1 v c h ih =>
    rw [vectorizeLoop]
    simp only [dif_pos h]
    exact ih
  | case2 v c h =>
    rw [vectorizeLoop]
    simp only [dif_neg h]
    omega

theorem mem_vectorizeLoop_bounds (seed : String) (dimension : Nat)
    (v : List ℚ) (c : Nat) (hv : ∀ x ∈ v, 0 ≤ x ∧ x ≤ 1) :
    ∀ x ∈ vectorizeLoop seed dimension v c, 0 ≤ x ∧ x ≤ 1 := by
  induction v, c using vectorizeLoop.induct seed dimension with
  | case1 v c h ih =>
    rw [vectorizeLoop]
    simp only [dif_pos h]
    apply ih
    intro y hy
    rcases List.mem_append.mp hy with hy | hy
    · exact hv y hy
    · rcases List.mem_map.mp hy with ⟨byte, hbyte, rfl⟩
      have hlt : byte < 256 := mem_sha256_lt _ byte hbyte
      constructor
      · positivity
      · rw [div_le_one (by norm_num)]
        exact_mod_cast Nat.lt_succ_iff.mp (by exact_mod_cast hlt)
  | case2 v c h =>
    rw [vectorizeLoop]
    simp only [dif_neg h]
    exact hv

theorem length_vectorize (dimension : Nat) (text : String) :
    (vectorize dimension text).length = dimension := by
  rw [vectorize, List.length_take]
  exact Nat.min_eq_left (le_length_vectorizeLoop _ _ _ _)

theorem mem_vectorize_bounds (dimension : Nat) (text : String) :
    ∀ x ∈ vectorize dimension text, 0 ≤ x ∧ x ≤ 1 := by
  intro x hx
  exact mem_vectorizeLoop_bounds _ dimension [] 0 (by simp) x
    (List.mem_of_mem_take hx)

end HashEmbeddingFunction

/-! ## Data model (`utils.py`, `schemas.py`)

LangChain `Document`s carry a text payload and a metadata dict; the keys
this code base reads or writes (`source`, `file_name`, `page`, `chunk_id`)
are modelled as optional fields. -/

/-- A LangChain `Document`: chunk text plus provenance metadata. -/
structure Document where
  pageContent : String
  source : Option String := none
  fileName : Option String := none
  page : Option Nat := none
  chunkId : Option String := none
deriving DecidableEq, Repr

/-- One page/section produced by a document loader (`PyPDFLoader` yields a
page-numbered document per page; `TextLoader` yields one unnumbered one). -/
structure SourcePage where
  content : String
  page : Option Nat := none
deriving DecidableEq, Repr

/-- A file found by `directory.rglob("*")`, with the `pathlib` attributes
the loader reads and the pages its loader would produce. -/
structure SourceFile where
  path : String
  name : String
  stem : String
  suffix : String
  pages : List SourcePage
deriving DecidableEq, Repr

/-- The ingestion source directory: `none` when it does not exist,
otherwise the files `rglob` enumerates (directories excluded). -/
abbrev Directory := Option (List SourceFile)

/-- Ingestion metrics (`files`, `pages`, `chunks`). -/
structure Metrics where
  files : Nat
  pages : Nat
  chunks : Nat
deriving DecidableEq, Repr

/-- Model of `utils.SUPPORTED_EXTENSIONS`. -/
def SUPPORTED_EXTENSIONS : List String := [".pdf", ".txt", ".md"]

/-- Errors of `load_and_split_documents`: `FileNotFoundError` (the spec's
`NotFoundError`) and `ValueError` for an empty corpus (the spec's
`EmptyCorpusError`). -/
inductive LoadError where
  | notFound
  | emptyCorpus
deriving DecidableEq, Repr

/-! ## Text splitting

Modelled from the spec: `RecursiveCharacterTextSplitter` is LangChain
library code, external to this repository.  Per §4.2 the splitter is "a
recursive, size-bounded splitter ... falling back to hard character
limits; consecutive chunks overlap by `chunk_overlap` characters", and
empty files yield zero chunks (§4.2 error cases). -/

/-- Modelled from the spec: size-bounded splitting of a character list with
`chunkOverlap` characters carried over between consecutive chunks; empty
input yields no chunks.  (The splitter rejects `chunk_overlap ≥ chunk_size`
at construction; that degenerate configuration is mapped to a single
chunk.)  Structural recursion on a fuel bound keeps the definition
kernel-reducible; each round consumes at least one character, so fuel
`cs.length` is never exhausted. -/
def splitCharsFuel (chunkSize chunkOverlap : Nat) :
    Nat → List Char → List (List Char)
  | 0, cs => if cs.isEmpty then [] else [cs]
  | fuel + 1, cs =>
    if cs.length ≤ chunkSize then (if cs.isEmpty then [] else [cs])
    else if chunkOverlap < chunkSize then
      cs.take chunkSize ::
        splitCharsFuel chunkSize chunkOverlap fuel
          (cs.drop (chunkSize - chunkOverlap))
    else [cs]

/-- Modelled from the spec: size-bounded overlapping splitting of a
character list. -/
def splitChars (chunkSize chunkOverlap : Nat) (cs : List Char) : List (List Char) :=
  splitCharsFuel chunkSize chunkOverlap cs.length cs

/-- Modelled from the spec: split one text into size-bounded overlapping
chunks. -/
def splitText (chunkSize chunkOverlap : Nat) (text : String) : List String :=
  (splitChars chunkSize chunkOverlap text.data).map String.mk

/-- Model of `splitter.split_documents`: split each document's text, each chunk
inheriting the document's metadata. -/
def split_documents (chunkSize chunkOverlap : Nat) (docs : List Document) :
    List Document :=
  docs.flatMap (fun d => (splitText chunkSize chunkOverlap d.pageContent).map
    (fun t => { d with pageContent := t }))

/-! ## `utils.load_and_split_documents` (`utils.py`, lines 22-63) -/

/-- Model of `utils._load_file` combined with the metadata `setdefault` loop of
`load_and_split_documents`: one `Document` per loaded page, tagged with
`source` and `file_name`. -/
def _load_file (f : SourceFile) : List Document :=
  f.pages.map (fun p =>
    { pageContent := p.content, source := some f.path, fileName := some f.name,
      page := p.page, chunkId := none })

/-- The per-file body of the `rglob` loop: load, split, and assign
`chunk_id = f"{file_path.stem}-{idx}"` over the file's chunks. -/
def fileChunks (chunkSize chunkOverlap : Nat) (f : SourceFile) : List Document :=
  (split_documents chunkSize chunkOverlap (_load_file f)).enum.map
    (fun p => { p.2 with chunkId := some (f.stem ++ "-" ++ natRepr p.1) })

/-- The files the `rglob` loop processes: supported extensions only
(`file_path.suffix.lower() in SUPPORTED_EXTENSIONS`). -/
def supportedFiles (files : List SourceFile) : List SourceFile :=
  files.filter (fun f => pyLower f.suffix ∈ SUPPORTED_EXTENSIONS)

/-- Model of `utils.load_and_split_documents`: `FileNotFoundError` when the
directory does not exist, `ValueError` (empty corpus) when no chunks
result, otherwise the chunked documents and metrics. -/
def load_and_split_documents (directory : Directory)
    (chunkSize chunkOverlap : Nat) :
    Except LoadError (List Document × Metrics) :=
  match directory with
  | none => .error .notFound
  | some files =>
    let processed := supportedFiles files
    let documents := processed.flatMap (fileChunks chunkSize chunkOverlap)
    if documents.isEmpty then .error .emptyCorpus
    else .ok (documents,
      { files := processed.length,
        pages := (processed.map (fun f => f.pages.length)).sum,
        chunks := documents.length })

/-- One formatted citation entry (the dict built by `format_sources`). -/
structure Citation where
  rank : Nat
  file : String
  page : String
  chunkId : String
  source : String
deriving DecidableEq, Repr

/-- Model of `utils.format_sources` (`utils.py`, lines 78-92). -/
def format_sources (documents : List Document) : List Citation :=
  documents.enum.map (fun p =>
    { rank := p.1 + 1,
      file := p.2.fileName.getD (p.2.source.getD "unknown"),
      page := (p.2.page.map natRepr).getD "n/a",
      chunkId := p.2.chunkId.getD "",
      source := p.2.source.getD "" })

/-! ## `RAGPipeline` (`pipeline.py`, lines 48-210) -/

/-- The configuration fields of `Settings` (`config.py`) that the pipeline
methods read. -/
structure Settings where
  chunkSize : Nat := 800
  chunkOverlap : Nat := 150
  topK : Nat := 4
  chatHistoryLimit : Nat := 50
deriving DecidableEq, Repr

/-- The error `query` raises on a blank question
(`ValueError("Question cannot be empty.")`; the spec's
`InvalidQueryError`). -/
inductive QueryError where
  | invalidQuery
deriving DecidableEq, Repr

/-- The `{question, answer, sources}` dict returned by `query` and stored
in the history deque. -/
structure QueryResult where
  question : String
  answer : String
  sources : List Citation
deriving DecidableEq, Repr

/-- Model of `collections.deque(maxlen).appendleft`: the new element becomes the
head; when the deque is full the rightmost (oldest) element is evicted. -/
def dequeAppendleft (maxlen : Nat) (x : α) (q : List α) : List α :=
  (x :: q).take maxlen

namespace RAGPipeline

/-- The mutable state of one `RAGPipeline` instance: the bounded history
deque (head = most recent), the Chroma collection contents, the similarity
scoring the store applies at query time (abstract, per §9 the metric is
not pinned), and the optional generative backend (`none` when no external
LLM is configured; a configured backend may fail). -/
structure State where
  settings : Settings
  history : List QueryResult
  store : List Document
  score : String → Document → ℚ
  llm : Option (String → Except Unit String)

/-- Modelled from the spec: `Chroma.similarity_search` is library code
external to this repository.  Per §4.3 the index "computes a similarity
score between the query vector and every stored vector ... and returns
the top `k` by descending score; if fewer than `k` chunks are indexed,
returns all of them. If the index is empty, returns an empty Retrieval
Result (not an error)"; ties keep insertion order (§3). -/
def similarity_search (st : State) (q : String) (k : Nat) : List Document :=
  (st.store.insertionSort (fun d₁ d₂ => st.score q d₂ ≤ st.score q d₁)).take k

/-- The `[Source N]`-labelled context block of `_generate_answer`
(`pipeline.py`, lines 181-183). -/
def buildContext (documents : List Document) : String :=
  String.intercalate "\n\n" (documents.enum.map
    (fun p => "[Source " ++ natRepr (p.1 + 1) ++ "] " ++ pyStrip p.2.pageContent))

/-- The synthesis prompt of `_generate_answer` (`pipeline.py`,
lines 185-191). -/
def buildPrompt (question : String) (documents : List Document) : String :=
  "You are a telecom customer support policy assistant. Use the context to craft a concise answer.\n" ++
    "If the answer is not present, politely say you do not know.\n" ++
    "Question: " ++ question ++ "\n" ++
    "Context:\n" ++ buildContext documents ++ "\n" ++
    "Answer with 2-3 sentences and cite sources as [Source #]."

/-- The deterministic fallback summarizer of `_generate_answer`
(`pipeline.py`, lines 200-210). -/
def fallbackAnswer (documents : List Document) : String :=
  "Based on the knowledge base, here is what I found: " ++
    String.intercalate " " (documents.enum.map
      (fun p => "[Source " ++ natRepr (p.1 + 1) ++ "] " ++
        pyTake (pyReplaceChar p.2.pageContent newlineChar ' ') 220 ++ "...")) ++
    " If this does not answer the question, consider adding more detailed documents."

/-- Model of `RAGPipeline._generate_answer` (`pipeline.py`, lines 180-210): use the
configured backend if any, fall back to the extractive summarizer when it
is absent or its invocation raises. -/
def _generate_answer (llm : Option (String → Except Unit String))
    (question : String) (documents : List Document) : String :=
  match llm with
  | some invoke =>
    match invoke (buildPrompt question documents) with
    | .ok response => pyStrip response
    | .error _ => fallbackAnswer documents
  | none => fallbackAnswer documents

/-- The fixed answer returned when retrieval yields no documents
(`pipeline.py`, line 164). -/
def noInfoAnswer : String :=
  "I could not find relevant information in the knowledge base yet."

/-- Model of `RAGPipeline.query` (`pipeline.py`, lines 152-173).  A raised
`ValueError` is modelled as `Except.error`; the returned state carries the
history mutation (the only state the method writes). -/
def query (st : State) (question : String) :
    Except QueryError (State × QueryResult) :=
  let clean_question := pyStrip question
  if clean_question = "" then .error .invalidQuery
  else
    let docs := similarity_search st clean_question st.settings.topK
    if docs.isEmpty then
      .ok (st, { question := clean_question, answer := noInfoAnswer, sources := [] })
    else
      let result : QueryResult :=
        { question := clean_question,
          answer := _generate_answer st.llm clean_question docs,
          sources := format_sources docs }
      .ok ({ st with
              history := dequeAppendleft st.settings.chatHistoryLimit result st.history },
           result)

/-- Model of `RAGPipeline.history` (`pipeline.py`, lines 175-178).  Note the Python
`limit or self.settings.chat_history_limit`: a limit of `0` (or `None`)
falls back to the configured capacity. -/
def history (st : State) (limit : Option Nat) : List QueryResult :=
  let lim := match limit with
    | none => st.settings.chatHistoryLimit
    | some l => if l = 0 then st.settings.chatHistoryLimit else l
  st.history.take lim

/-- Model of `RAGPipeline.ingest` (`pipeline.py`, lines 133-150): chunk the
directory, append the chunks to the store under the lock, and return the
metrics together with the resulting collection size.  Chunking errors
propagate unchanged. -/
def ingest (st : State) (directory : Directory) :
    Except LoadError (State × Metrics × Nat) :=
  match load_and_split_documents directory st.settings.chunkSize
      st.settings.chunkOverlap with
  | .error e => .error e
  | .ok (documents, metrics) =>
    .ok ({ st with store := st.store ++ documents }, metrics,
      (st.store ++ documents).length)

end RAGPipeline

/-! ## Concurrency model (§5; `pipeline.py` lines 143-145, 159, 171-172)

`ingest` performs its store mutation (`add_documents` + `persist`) inside
one `self._lock` critical section, so concurrent executions serialize into
a sequence of whole-batch commits; a query's `similarity_search` is a
single read of the store.  A concurrent execution is therefore an
interleaving of atomic events: each ingest contributes one
`ingestCommit` carrying the whole chunk batch it adds, each query one
`queryRead` observing the store at its position. -/

/-- One atomic event of an interleaved execution. -/
inductive TraceEvent where
  | ingestCommit (chunks : List Document)
  | queryRead
deriving DecidableEq, Repr

/-- Effect of one event on the shared store (an `ingestCommit` appends its
whole batch, exactly as `ingest` does; a read leaves it unchanged). -/
def applyEvent (store : List Document) : TraceEvent → List Document
  | .ingestCommit chunks => store ++ chunks
  | .queryRead => store

/-- The store after executing a trace of atomic events. -/
def runTrace (store : List Document) (trace : List TraceEvent) : List Document :=
  trace.foldl applyEvent store

/-- All chunks committed by the ingests of a trace, in commit order. -/
def writesOf (trace : List TraceEvent) : List Document :=
  trace.flatMap (fun e => match e with
    | .ingestCommit chunks => chunks
    | .queryRead => [])

/-- The store a read at position `p` of the trace observes. -/
def observedAt (store : List Document) (trace : List TraceEvent) (p : Nat) :
    List Document :=
  runTrace store (trace.take p)

theorem runTrace_eq (trace : List TraceEvent) :
    ∀ store : List Document, runTrace store trace = store ++ writesOf trace := by
  induction trace with
  | nil => intro store; simp [runTrace, writesOf]
  | cons e rest ih =>
    intro store
    cases e with
    | ingestCommit chunks =>
      simp only [runTrace, List.foldl_cons, applyEvent] at ih ⊢
      rw [ih, writesOf]
      simp [writesOf, List.append_assoc]
    | queryRead =>
      simp only [runTrace, List.foldl_cons, applyEvent] at ih ⊢
      rw [ih, writesOf]
      simp [writesOf]

theorem mem_writesOf {chunks : List Document} {trace : List TraceEvent}
    (he : TraceEvent.ingestCommit chunks ∈ trace) :
    ∀ c ∈ chunks, c ∈ writesOf trace := by
  intro c hc
  simp only [writesOf, List.mem_flatMap]
  exact ⟨TraceEvent.ingestCommit chunks, he, hc⟩

/-! ## Supporting lemmas -/

theorem take_append_take {α : Type} (n : Nat) (l m : List α) :
    List.take n (l ++ List.take n m) = List.take n (l ++ m) := by
  rw [List.take_append_eq_append_take, List.take_append_eq_append_take,
    List.take_take, min_eq_left (Nat.sub_le _ _)]

theorem foldl_dequeAppendleft {α : Type} (C : Nat) (es : List α) :
    ∀ acc : List α, acc.length ≤ C →
      es.foldl (fun q e => dequeAppendleft C e q) acc =
        (es.reverse ++ acc).take C := by
  induction es with
  | nil => intro acc hacc; simp [List.take_of_length_le hacc]
  | cons e rest ih =>
    intro acc hacc
    simp only [List.foldl_cons]
    rw [ih (dequeAppendleft C e acc)
      (by rw [dequeAppendleft, List.length_take]; exact Nat.min_le_left _ _)]
    have h1 : (e :: rest).reverse ++ acc = rest.reverse ++ (e :: acc) := by simp
    rw [h1, dequeAppendleft, take_append_take]

theorem take_reverse_eq_drop_reverse {α : Type} (n : Nat) (l : List α)
    (h : n ≤ l.length) :
    l.reverse.take n = (l.drop (l.length - n)).reverse := by
  have := List.reverse_take (l := l.reverse) (n := n)
  have h2 : l.reverse.reverse = l := List.reverse_reverse l
  apply List.reverse_injective
  rw [List.reverse_reverse]
  rw [List.reverse_take]
  simp

theorem mem_splitCharsFuel_length (chunkSize chunkOverlap : Nat)
    (hover : chunkOverlap < chunkSize) :
    ∀ (fuel : Nat) (cs : List Char), cs.length ≤ fuel →
      ∀ chunk ∈ splitCharsFuel chunkSize chunkOverlap fuel cs,
        chunk.length ≤ chunkSize := by
  intro fuel
  induction fuel with
  | zero =>
    intro cs hcs chunk hc
    have : cs = [] := List.length_eq_zero.mp (Nat.le_zero.mp hcs)
    rw [this] at hc
    simp [splitCharsFuel] at hc
  | succ k ih =>
    intro cs hcs chunk hc
    rw [splitCharsFuel] at hc
    split at hc
    · rename_i hle
      split at hc
      · simp at hc
      · simp only [List.mem_singleton] at hc
        rw [hc]; exact hle
    · rename_i hgt
      rcases List.mem_cons.mp hc with hc | hc
      · rw [hc, List.length_take]; exact Nat.min_le_left _ _
      · refine ih _ ?_ chunk hc
        rw [List.length_drop]
        omega

theorem mem_splitChars_length (chunkSize chunkOverlap : Nat)
    (hover : chunkOverlap < chunkSize) (cs : List Char) :
    ∀ chunk ∈ splitChars chunkSize chunkOverlap cs, chunk.length ≤ chunkSize :=
  mem_splitCharsFuel_length chunkSize chunkOverlap hover cs.length cs le_rfl

theorem mem_splitText_length (chunkSize chunkOverlap : Nat)
    (hover : chunkOverlap < chunkSize) (text : String) :
    ∀ chunk ∈ splitText chunkSize chunkOverlap text,
      chunk.length ≤ chunkSize := by
  intro chunk hc
  rcases List.mem_map.mp hc with ⟨cs, hcs, rfl⟩
  exact mem_splitChars_length chunkSize chunkOverlap hover _ _ hcs

theorem mem_split_documents_length (chunkSize chunkOverlap : Nat)
    (hover : chunkOverlap < chunkSize) (docs : List Document) :
    ∀ d ∈ split_documents chunkSize chunkOverlap docs,
      d.pageContent.length ≤ chunkSize := by
  intro d hd
  rcases List.mem_flatMap.mp hd with ⟨doc, _, hmem⟩
  rcases List.mem_map.mp hmem with ⟨t, ht, rfl⟩
  exact mem_splitText_length chunkSize chunkOverlap hover _ _ ht

theorem pageContent_fileChunks (chunkSize chunkOverlap : Nat) (f : SourceFile) :
    (fileChunks chunkSize chunkOverlap f).map (fun d => d.pageContent) =
      (split_documents chunkSize chunkOverlap (_load_file f)).map
        (fun d => d.pageContent) := by
  rw [fileChunks, List.map_map]
  have : ((fun d => d.pageContent) ∘
      fun p : Nat × Document =>
        { p.2 with chunkId := some (f.stem ++ "-" ++ natRepr p.1) }) =
      (fun p : Nat × Document => p.2.pageContent) := rfl
  rw [this]
  have h2 : (fun p : Nat × Document => p.2.pageContent) =
      (fun d : Document => d.pageContent) ∘ Prod.snd := rfl
  rw [h2, ← List.map_map, List.enum_map_snd]

theorem mem_fileChunks_length (chunkSize chunkOverlap : Nat)
    (hover : chunkOverlap < chunkSize) (f : SourceFile) :
    ∀ d ∈ fileChunks chunkSize chunkOverlap f,
      d.pageContent.length ≤ chunkSize := by
  intro d hd
  have hmem : d.pageContent ∈
      (fileChunks chunkSize chunkOverlap f).map (fun d => d.pageContent) :=
    List.mem_map.mpr ⟨d, hd, rfl⟩
  rw [pageContent_fileChunks] at hmem
  rcases List.mem_map.mp hmem with ⟨d', hd', hpc⟩
  rw [← hpc]
  exact mem_split_documents_length chunkSize chunkOverlap hover _ _ hd'

theorem string_append_left_cancel {a b c : String} (h : a ++ b = a ++ c) :
    b = c := by
  apply String.ext
  have hd : a.data ++ b.data = a.data ++ c.data := by
    rw [← String.data_append, ← String.data_append, h]
  exact List.append_cancel_left hd

/-! ## Concrete fixtures used by witnesses and counterexamples -/

/-- A sample history entry. -/
def exampleEntry : QueryResult := { question := "q", answer := "a", sources := [] }

/-- A pipeline state with one history entry, an empty store, the default
settings, and no external LLM. -/
def exampleState : RAGPipeline.State :=
  { settings := {}, history := [exampleEntry], store := [],
    score := fun _ _ => 0, llm := none }

/-- Three distinct history entries, oldest first. -/
def exampleEntries : List QueryResult :=
  [{ question := "q1", answer := "a1", sources := [] },
   { question := "q2", answer := "a2", sources := [] },
   { question := "q3", answer := "a3", sources := [] }]

/-- The pipeline state after appending `exampleEntries` into a history
deque of capacity 2. -/
def exampleState2 : RAGPipeline.State :=
  { settings := { chatHistoryLimit := 2 },
    history := exampleEntries.foldl (fun q e => dequeAppendleft 2 e q) [],
    store := [], score := fun _ _ => 0, llm := none }

/-- A sample text file whose five-character content splits, at
`chunk_size = 3, chunk_overlap = 1`, into the chunks `"abc"` and `"cde"`. -/
def exampleFile : SourceFile :=
  { path := "docs/a.txt", name := "a.txt", stem := "a", suffix := ".txt",
    pages := [{ content := "abcde" }] }

/-- A source directory holding `exampleFile`. -/
def exampleDir : Directory := some [exampleFile]

/-! ## Claims -/

/-- C1: for every input string, the fallback embedding `_vectorize` —
seeded with the trimmed text (or `"empty"` when blank), repeatedly
SHA-256-hashing `"{seed}-{counter}"` and appending digest bytes divided by
255, truncated to the configured dimension 384 — always has exactly 384
components, every component lies in `[0, 1]`, it never fails (it is a
total function), and it is deterministic: byte-identical texts give
identical vectors. -/
theorem C1_vectorize_spec (t : String) :
    (HashEmbeddingFunction.vectorize 384 t).length = 384 ∧
    (∀ x ∈ HashEmbeddingFunction.vectorize 384 t, 0 ≤ x ∧ x ≤ 1) ∧
    (∀ s : String, s = t →
      HashEmbeddingFunction.vectorize 384 s = HashEmbeddingFunction.vectorize 384 t) :=
  ⟨HashEmbeddingFunction.length_vectorize 384 t,
   HashEmbeddingFunction.mem_vectorize_bounds 384 t,
   fun _ hs => hs ▸ rfl⟩

/-- Witness for C1 at the concrete text `"roaming"`. -/
theorem C1_vectorize_spec_witness :
    (HashEmbeddingFunction.vectorize 384 "roaming").length = 384 ∧
    HashEmbeddingFunction.vectorize 384 "roaming" =
      HashEmbeddingFunction.vectorize 384 "roaming" :=
  ⟨(C1_vectorize_spec "roaming").1,
   (C1_vectorize_spec "roaming").2.2 "roaming" rfl⟩

/-- C2 counterexample: the claim asserts that for every non-negative
`limit`, `history(limit)` returns up to `limit` entries; but Python's
`limit or self.settings.chat_history_limit` treats `0` as falsy, so with
one stored entry `history(0)` returns 1 entry, more than 0. -/
theorem C2_history_counterexample :
    RAGPipeline.history exampleState (some 0) = [exampleEntry] ∧
    ¬((RAGPipeline.history exampleState (some 0)).length ≤ 0) := by
  constructor
  · rfl
  · decide

/-- C2 (amended): for every *positive* limit, `history(limit)` returns the
`limit` most-recent entries, most recent first, without mutation (a limit
of 0, like `None`, falls back to the configured capacity); and after
appending `N > C` entries into the capacity-`C` deque, the stored history
holds exactly the last `C` appended entries in most-recent-first order, so
`history(C)` returns exactly `C` entries and (for distinct entries) the
evicted oldest ones are no longer retrievable. -/
theorem C2_history_amended :
    (∀ (st : RAGPipeline.State) (lim : Nat), 0 < lim →
      RAGPipeline.history st (some lim) = st.history.take lim) ∧
    (∀ (C : Nat) (es : List QueryResult) (st : RAGPipeline.State),
      0 < C → C < es.length →
      st.history = es.foldl (fun q e => dequeAppendleft C e q) [] →
      st.settings.chatHistoryLimit = C →
      st.history.length ≤ C ∧
      (RAGPipeline.history st (some C)).length = C ∧
      RAGPipeline.history st (some C) = es.reverse.take C ∧
      (es.Nodup → ∀ e ∈ es.take (es.length - C),
        e ∉ RAGPipeline.history st (some C))) := by
  constructor
  · intro st lim hlim
    rw [RAGPipeline.history]
    simp [Nat.pos_iff_ne_zero.mp hlim]
  · intro C es st hC hN hhist hcap
    have hstored : st.history = es.reverse.take C := by
      rw [hhist, foldl_dequeAppendleft C es [] (by simp)]
      simp
    have hCne : C ≠ 0 := Nat.pos_iff_ne_zero.mp hC
    have hhistC : RAGPipeline.history st (some C) = es.reverse.take C := by
      rw [RAGPipeline.history]
      simp only [if_neg hCne, hstored, List.take_take, min_self]
    refine ⟨?_, ?_, hhistC, ?_⟩
    · rw [hstored, List.length_take]
      exact Nat.min_le_left _ _
    · rw [hhistC, List.length_take, List.length_reverse]
      omega
    · intro hnodup e he
      rw [hhistC, take_reverse_eq_drop_reverse C es (by omega)]
      rw [List.mem_reverse]
      have hdisj := List.disjoint_take_drop (l := es)
        (m := es.length - C) (n := es.length - C) hnodup le_rfl
      intro hmem
      exact hdisj he hmem

/-- Unfolding of `load_and_split_documents` on an existing directory. -/
theorem load_and_split_documents_some (files : List SourceFile) (cs co : Nat) :
    load_and_split_documents (some files) cs co =
      (if ((supportedFiles files).flatMap (fileChunks cs co)).isEmpty
       then Except.error LoadError.emptyCorpus
       else Except.ok ((supportedFiles files).flatMap (fileChunks cs co),
         { files := (supportedFiles files).length,
           pages := ((supportedFiles files).map (fun f => f.pages.length)).sum,
           chunks := ((supportedFiles files).flatMap (fileChunks cs co)).length })) :=
  rfl

/-- C3: when `chunk_overlap < chunk_size`, every chunk produced by
`load_and_split_documents` has text length at most `chunk_size`, for every
input corpus. -/
theorem C3_chunk_size_bound (directory : Directory) (chunkSize chunkOverlap : Nat)
    (hover : chunkOverlap < chunkSize) (docs : List Document) (m : Metrics)
    (hok : load_and_split_documents directory chunkSize chunkOverlap =
      Except.ok (docs, m)) :
    ∀ d ∈ docs, d.pageContent.length ≤ chunkSize := by
  intro d hd
  rcases directory with _ | files
  · simp [load_and_split_documents] at hok
  · rw [load_and_split_documents_some] at hok
    split at hok
    · cases hok
    · simp only [Except.ok.injEq, Prod.mk.injEq] at hok
      obtain ⟨hdocs, -⟩ := hok
      rw [← hdocs] at hd
      rcases List.mem_flatMap.mp hd with ⟨f, -, hdf⟩
      exact mem_fileChunks_length chunkSize chunkOverlap hover f d hdf

/-- Witness for C3: the five-character file split at
`chunk_size = 3, chunk_overlap = 1`; its first chunk is within bounds. -/
theorem C3_chunk_size_bound_witness :
    ({ pageContent := "abc", source := some "docs/a.txt", fileName := some "a.txt", page := none, chunkId := some "a-0" } : Document).pageContent.length ≤ 3 :=
  C3_chunk_size_bound exampleDir 3 1 (by decide)
    [{ pageContent := "abc", source := some "docs/a.txt", fileName := some "a.txt", page := none, chunkId := some "a-0" },
     { pageContent := "cde", source := some "docs/a.txt", fileName := some "a.txt", page := none, chunkId := some "a-1" }]
    { files := 1, pages := 1, chunks := 2 } rfl
    { pageContent := "abc", source := some "docs/a.txt", fileName := some "a.txt", page := none, chunkId := some "a-0" }
    (by decide)

/-- C4: `query` on a question that is blank after trimming fails with the
invalid-query error, uniformly in the pipeline state (so neither the index
contents nor the history play any role, and no state mutation is
returned); a question with non-whitespace content never produces this
error. -/
theorem C4_blank_query_invalid (question : String) :
    (pyStrip question = "" → ∀ st : RAGPipeline.State,
      RAGPipeline.query st question = Except.error QueryError.invalidQuery) ∧
    (pyStrip question ≠ "" → ∀ st : RAGPipeline.State,
      ∃ st' r, RAGPipeline.query st question = Except.ok (st', r)) := by
  constructor
  · intro h st
    rw [RAGPipeline.query]
    simp [h]
  · intro h st
    rw [RAGPipeline.query]
    simp only [if_neg h]
    by_cases hd :
        (RAGPipeline.similarity_search st (pyStrip question) st.settings.topK).isEmpty
    · simp only [hd, if_true]
      exact ⟨_, _, rfl⟩
    · simp only [hd, if_false]
      exact ⟨_, _, rfl⟩

/-- Witness for C4: the all-whitespace question `"  "` and the non-blank
question `"hi"`, against the sample state. -/
theorem C4_blank_query_invalid_witness :
    RAGPipeline.query exampleState "  " = Except.error QueryError.invalidQuery ∧
    ∃ st' r, RAGPipeline.query exampleState "hi" = Except.ok (st', r) :=
  ⟨(C4_blank_query_invalid "  ").1 (by decide) exampleState,
   (C4_blank_query_invalid "hi").2 (by decide) exampleState⟩

/-- C5: retrieval returns at most `min k n` documents for an index of `n`
chunks — sorted by descending similarity score; all indexed chunks when
`n ≤ k`; the empty list (not an error) on an empty index — and the
formatted sources list has that same length. -/
theorem C5_retrieval_topk (st : RAGPipeline.State) (q : String) (k : Nat) :
    (RAGPipeline.similarity_search st q k).length = min k st.store.length ∧
    List.Sorted (fun d₁ d₂ => st.score q d₂ ≤ st.score q d₁)
      (RAGPipeline.similarity_search st q k) ∧
    (st.store.length ≤ k →
      (RAGPipeline.similarity_search st q k).Perm st.store) ∧
    (st.store = [] → RAGPipeline.similarity_search st q k = []) ∧
    (format_sources (RAGPipeline.similarity_search st q k)).length =
      min k st.store.length := by
  have hlen : (RAGPipeline.similarity_search st q k).length = min k st.store.length := by
    rw [RAGPipeline.similarity_search, List.length_take, List.length_insertionSort]
  refine ⟨hlen, ?_, ?_, ?_, ?_⟩
  · haveI : IsTotal Document (fun d₁ d₂ => st.score q d₂ ≤ st.score q d₁) :=
      ⟨fun a b => le_total _ _⟩
    haveI : IsTrans Document (fun d₁ d₂ => st.score q d₂ ≤ st.score q d₁) :=
      ⟨fun a b c hab hbc => le_trans hbc hab⟩
    exact List.Pairwise.sublist (List.take_sublist _ _)
      (List.sorted_insertionSort _ st.store)
  · intro hle
    rw [RAGPipeline.similarity_search,
      List.take_of_length_le (by rw [List.length_insertionSort]; exact hle)]
    exact List.perm_insertionSort _ _
  · intro hempty
    rw [RAGPipeline.similarity_search, hempty]
    simp
  · rw [format_sources, List.length_map, List.enum_length, hlen]

/-- Witness for C5 on the empty-store sample state. -/
theorem C5_retrieval_topk_witness :
    (RAGPipeline.similarity_search exampleState "q" 4).Perm exampleState.store ∧
    RAGPipeline.similarity_search exampleState "q" 4 = [] :=
  ⟨(C5_retrieval_topk exampleState "q" 4).2.2.1 (by decide),
   (C5_retrieval_topk exampleState "q" 4).2.2.2.1 rfl⟩

/-- C6: with no generative backend, or with a backend whose invocation on
the synthesis prompt fails, `_generate_answer` returns (without raising)
the deterministic extractive fallback: each retrieved chunk in rank order
under its `[Source N]` label, the first 220 characters of its text with
newlines flattened to spaces, with the fixed closing invitation to add
more detailed documents; and this fallback is never the empty string. -/
theorem C6_extractive_fallback (question : String) (documents : List Document)
    (hne : documents ≠ []) :
    RAGPipeline._generate_answer none question documents =
      "Based on the knowledge base, here is what I found: " ++
        String.intercalate " " (documents.enum.map
          (fun p => "[Source " ++ natRepr (p.1 + 1) ++ "] " ++
            pyTake (pyReplaceChar p.2.pageContent newlineChar ' ') 220 ++ "...")) ++
        " If this does not answer the question, consider adding more detailed documents." ∧
    (∀ (invoke : String → Except Unit String) (e : Unit),
      invoke (RAGPipeline.buildPrompt question documents) = Except.error e →
      RAGPipeline._generate_answer (some invoke) question documents =
        RAGPipeline._generate_answer none question documents) ∧
    RAGPipeline._generate_answer none question documents ≠ "" := by
  refine ⟨rfl, ?_, ?_⟩
  · intro invoke e herr
    simp [RAGPipeline._generate_answer, herr]
  · intro hempty
    have hlen := congrArg String.length hempty
    rw [show RAGPipeline._generate_answer none question documents =
        RAGPipeline.fallbackAnswer documents from rfl,
      RAGPipeline.fallbackAnswer, String.length_append, String.length_append] at hlen
    have h1 : (0:Nat) <
        ("Based on the knowledge base, here is what I found: " : String).length := by
      decide
    have h2 : ("" : String).length = 0 := rfl
    omega

/-- Witness for C6: one document, and a backend that always fails. -/
theorem C6_extractive_fallback_witness :
    RAGPipeline._generate_answer none "q" [{ pageContent := "text" }] ≠ "" ∧
    RAGPipeline._generate_answer (some (fun _ => Except.error ())) "q"
        [{ pageContent := "text" }] =
      RAGPipeline._generate_answer none "q" [{ pageContent := "text" }] :=
  ⟨(C6_extractive_fallback "q" [{ pageContent := "text" }] (by simp)).2.2,
   (C6_extractive_fallback "q" [{ pageContent := "text" }] (by simp)).2.1
     (fun _ => Except.error ()) () rfl⟩

/-- C7: `load_and_split_documents` fails with the not-found error exactly
when the directory does not exist, and with the empty-corpus error exactly
when the directory exists but scanning and splitting produce zero chunks;
both errors propagate through `ingest` unchanged. -/
theorem C7_load_error_conditions (directory : Directory)
    (chunkSize chunkOverlap : Nat) :
    (load_and_split_documents directory chunkSize chunkOverlap =
        Except.error LoadError.notFound ↔ directory = none) ∧
    (load_and_split_documents directory chunkSize chunkOverlap =
        Except.error LoadError.emptyCorpus ↔
      ∃ files, directory = some files ∧
        (supportedFiles files).flatMap (fileChunks chunkSize chunkOverlap) = []) ∧
    (∀ (st : RAGPipeline.State) (e : LoadError),
      st.settings.chunkSize = chunkSize → st.settings.chunkOverlap = chunkOverlap →
      load_and_split_documents directory chunkSize chunkOverlap = Except.error e →
      RAGPipeline.ingest st directory = Except.error e) := by
  refine ⟨?_, ?_, ?_⟩
  · rcases directory with _ | files
    · simp [load_and_split_documents]
    · rw [load_and_split_documents_some]
      split <;> simp
  · rcases directory with _ | files
    · simp [load_and_split_documents]
    · rw [load_and_split_documents_some]
      split
      · rename_i hemp
        rw [List.isEmpty_iff] at hemp
        exact iff_of_true rfl ⟨files, rfl, hemp⟩
      · rename_i hemp
        rw [List.isEmpty_iff] at hemp
        refine iff_of_false (by simp) ?_
        rintro ⟨files', heq, hflat⟩
        injection heq with heq'
        exact hemp (heq' ▸ hflat)
  · intro st e h1 h2 hload
    rw [RAGPipeline.ingest, h1, h2, hload]

/-- Witness for C7: ingesting a missing directory reports not-found. -/
theorem C7_load_error_conditions_witness :
    RAGPipeline.ingest exampleState none = Except.error LoadError.notFound :=
  (C7_load_error_conditions none 800 150).2.2 exampleState LoadError.notFound
    rfl rfl ((C7_load_error_conditions none 800 150).1.mpr rfl)

/-- C8: within each source file the chunk ids are exactly
`"{stem}-{i}"` for the 0-based chunk indices `i`, hence pairwise distinct;
and re-running ingestion on an identical directory with the same
`chunk_size`/`chunk_overlap` yields the identical result (the loader is a
pure function of its inputs), so the ids are stable across re-ingestion. -/
theorem C8_chunk_id_scheme (chunkSize chunkOverlap : Nat) (f : SourceFile) :
    (fileChunks chunkSize chunkOverlap f).map (fun d => d.chunkId) =
      (List.range (split_documents chunkSize chunkOverlap (_load_file f)).length).map
        (fun i => some (f.stem ++ "-" ++ natRepr i)) ∧
    ((fileChunks chunkSize chunkOverlap f).map (fun d => d.chunkId)).Nodup ∧
    (∀ directory : Directory,
      load_and_split_documents directory chunkSize chunkOverlap =
        load_and_split_documents directory chunkSize chunkOverlap) := by
  have hmap : (fileChunks chunkSize chunkOverlap f).map (fun d => d.chunkId) =
      (List.range (split_documents chunkSize chunkOverlap (_load_file f)).length).map
        (fun i => some (f.stem ++ "-" ++ natRepr i)) := by
    rw [fileChunks, List.map_map]
    have h1 : ((fun d => d.chunkId) ∘ fun p : Nat × Document =>
        { p.2 with chunkId := some (f.stem ++ "-" ++ natRepr p.1) }) =
        ((fun i => some (f.stem ++ "-" ++ natRepr i)) ∘ Prod.fst) := rfl
    rw [h1, ← List.map_map, List.enum_map_fst]
  refine ⟨hmap, ?_, fun _ => rfl⟩
  rw [hmap]
  refine List.Nodup.map ?_ (List.nodup_range _)
  intro i j hij
  simp only [Option.some.injEq] at hij
  exact natRepr_injective (string_append_left_cancel hij)

/-- C9: a non-blank question for which retrieval returns zero chunks (in
particular, any question against an empty index) is answered with the
fixed no-relevant-information text and an empty sources list, without an
error and with the state — hence the history — unchanged. -/
theorem C9_no_retrieval (st : RAGPipeline.State) (question : String)
    (hq : pyStrip question ≠ "") :
    (st.store = [] →
      RAGPipeline.similarity_search st (pyStrip question) st.settings.topK = []) ∧
    (RAGPipeline.similarity_search st (pyStrip question) st.settings.topK = [] →
      RAGPipeline.query st question =
        Except.ok (st, { question := pyStrip question,
                         answer := RAGPipeline.noInfoAnswer, sources := [] })) := by
  constructor
  · intro hempty
    rw [RAGPipeline.similarity_search, hempty]
    simp
  · intro hret
    rw [RAGPipeline.query]
    simp only [if_neg hq]
    simp [hret]

/-- Witness for C9: the question `"hi"` against the empty-store sample
state. -/
theorem C9_no_retrieval_witness :
    RAGPipeline.query exampleState "hi" =
      Except.ok (exampleState, { question := pyStrip "hi",
                                 answer := RAGPipeline.noInfoAnswer,
                                 sources := [] }) :=
  (C9_no_retrieval exampleState "hi" (by decide)).2
    ((C9_no_retrieval exampleState "hi" (by decide)).1 rfl)

/-- C10: in the interleaving model of §5 — each ingest's store mutation is
one atomic committed batch (it runs under `self._lock`), each query's
retrieval one atomic read — no interleaving loses chunk additions, a read
positioned after a commit observes all chunks of that commit, and every
read observes the initial store plus a concatenation of whole committed
batches, never a partial one. -/
theorem C10_serialized_ingest_visibility (store₀ : List Document)
    (trace : List TraceEvent) :
    runTrace store₀ trace = store₀ ++ writesOf trace ∧
    (∀ chunks, TraceEvent.ingestCommit chunks ∈ trace →
      ∀ c ∈ chunks, c ∈ runTrace store₀ trace) ∧
    (∀ p chunks, TraceEvent.ingestCommit chunks ∈ trace.take p →
      ∀ c ∈ chunks, c ∈ observedAt store₀ trace p) ∧
    (∀ p, observedAt store₀ trace p = store₀ ++ writesOf (trace.take p)) := by
  refine ⟨runTrace_eq trace store₀, ?_, ?_, fun p => runTrace_eq _ _⟩
  · intro chunks hmem c hc
    rw [runTrace_eq]
    exact List.mem_append.mpr (Or.inr (mem_writesOf hmem c hc))
  · intro p chunks hmem c hc
    rw [observedAt, runTrace_eq]
    exact List.mem_append.mpr (Or.inr (mem_writesOf hmem c hc))

/-- Witness for C10: a two-event trace (one commit, one read). -/
theorem C10_serialized_ingest_visibility_witness :
    ({ pageContent := "c" } : Document) ∈
      runTrace [] [TraceEvent.ingestCommit [{ pageContent := "c" }],
        TraceEvent.queryRead] ∧
    ({ pageContent := "c" } : Document) ∈
      observedAt [] [TraceEvent.ingestCommit [{ pageContent := "c" }],
        TraceEvent.queryRead] 1 :=
  ⟨(C10_serialized_ingest_visibility []
      [TraceEvent.ingestCommit [{ pageContent := "c" }], TraceEvent.queryRead]).2.1
      [{ pageContent := "c" }] (by decide) _ (by decide),
   (C10_serialized_ingest_visibility []
      [TraceEvent.ingestCommit [{ pageContent := "c" }], TraceEvent.queryRead]).2.2.1
      1 [{ pageContent := "c" }] (by decide) _ (by decide)⟩

/-- Witness for C2 (amended): capacity 2, three appended entries. -/
theorem C2_history_amended_witness :
    RAGPipeline.history exampleState2 (some 1) = exampleState2.history.take 1 ∧
    (exampleState2.history.length ≤ 2 ∧
      (RAGPipeline.history exampleState2 (some 2)).length = 2 ∧
      RAGPipeline.history exampleState2 (some 2) = exampleEntries.reverse.take 2 ∧
      (exampleEntries.Nodup → ∀ e ∈ exampleEntries.take (exampleEntries.length - 2),
        e ∉ RAGPipeline.history exampleState2 (some 2))) :=
  ⟨C2_history_amended.1 exampleState2 1 (by decide),
   C2_history_amended.2 2 exampleEntries exampleState2 (by decide) (by decide)
     rfl rfl⟩

end RAG
